import Mathlib

set_option maxRecDepth 10000

/-
Shallow embedding of the FITS decoding core of this repository
(src/parsing.rs together with the constants of the definitions module in
src/lib.rs).  Byte buffers are List Nat, one entry per byte; decoded text is
kept as its UTF-8 byte list.  The source's str byte-range slicing at offsets
8 and 10 is modelled including its panic when an offset falls inside a
multibyte character (isCharBoundary below); byte-wise space trimming agrees
with the source's character-wise trim_matches(' ') on every valid UTF-8
string, since UTF-8 continuation and leading bytes are never the space byte.
Rust panics (unwrap on a parse error or on an exhausted block iterator, the
explicit panic of HeaderChunk::parse, the char-boundary slice panic) are
modelled by the Except outcome Err.panicked; str::from_utf8 failure by
Err.utf8.  f64 data elements are represented by their big-endian bit pattern
as a Nat; f64 header values by the exact rational value of the decimal
literal (IEEE rounding is out of scope and no claim depends on it).  The
char::is_numeric test is modelled by the ASCII digit test, which agrees on
all ASCII inputs.  Machine-integer overflow of the byte-count product is out
of scope; every theorem instantiates small axes.
-/

namespace Fits

inductive Err
  | panicked
  | utf8
deriving DecidableEq

deriving instance DecidableEq for Except

def strB (s : String) : List Nat := s.toList.map Char.toNat

-- Constants of the definitions module of src/lib.rs.
def BLOCK_SIZE : Nat := 2880
def HEADER_KEYWORD_SIZE : Nat := 80
def HEADER_KEYWORD_NAME_SIZE : Nat := 8
def HEADER_VALUE_INDICATOR_SIZE : Nat := 2
def HEADER_VALUE_INDICATOR : List Nat := strB ("= ")
def HEADER_END_KEYWORD : List Nat := strB ("END")
def HEADER_HISTORY_KEYWORD : List Nat := strB ("HISTORY")
def HEADER_COMMENT_KEYWORD : List Nat := strB ("COMMENT")
def HEADER_CONTINUE_KEYWORD : List Nat := strB ("CONTINUE")

/-- Modelled from the spec: definitions::HEADER_END_KEYWORD_FULL is referenced
by HeaderChunk::from_bytes but is absent from the definitions module in src/;
the spec fixes it as the exact 80-byte literal "END" left-justified and
space-padded to full width (spec sections 4.1 and 6). -/
def HEADER_END_KEYWORD_FULL : List Nat := HEADER_END_KEYWORD ++ List.replicate 77 32

-- slice::chunks(n): fixed-size chunks, the final partial chunk kept.  n is
-- always BLOCK_SIZE or HEADER_KEYWORD_SIZE at the call sites, never 0.
def chunksGo (n : Nat) : List Nat → List Nat → Nat → List (List Nat)
  | [], acc, _ => if acc = [] then [] else [acc.reverse]
  | b :: l, acc, k =>
    if k + 1 = n then (acc.reverse ++ [b]) :: chunksGo n l [] 0
    else chunksGo n l (b :: acc) (k + 1)

def chunksList (n : Nat) (l : List Nat) : List (List Nat) := chunksGo n l [] 0

-- slice::chunks_exact(n): as chunks, but the final partial chunk is dropped.
def chunksExactGo (n : Nat) : List Nat → List Nat → Nat → List (List Nat)
  | [], _, _ => []
  | b :: l, acc, k =>
    if k + 1 = n then (acc.reverse ++ [b]) :: chunksExactGo n l [] 0
    else chunksExactGo n l (b :: acc) (k + 1)

def chunksExact (n : Nat) (l : List Nat) : List (List Nat) := chunksExactGo n l [] 0

def isContB (b : Nat) : Bool := decide (128 ≤ b ∧ b ≤ 191)

-- str::from_utf8 validity (the RFC 3629 byte ranges checked by Rust core's
-- run_utf8_validation).
def isValidUtf8 : List Nat → Bool
  | [] => true
  | b :: rest =>
    if b ≤ 127 then isValidUtf8 rest
    else if 194 ≤ b ∧ b ≤ 223 then
      match rest with
      | b1 :: rest2 => isContB b1 && isValidUtf8 rest2
      | [] => false
    else if b = 224 then
      match rest with
      | b1 :: b2 :: rest2 => decide (160 ≤ b1 ∧ b1 ≤ 191) && isContB b2 && isValidUtf8 rest2
      | _ => false
    else if (225 ≤ b ∧ b ≤ 236) ∨ (238 ≤ b ∧ b ≤ 239) then
      match rest with
      | b1 :: b2 :: rest2 => isContB b1 && isContB b2 && isValidUtf8 rest2
      | _ => false
    else if b = 237 then
      match rest with
      | b1 :: b2 :: rest2 => decide (128 ≤ b1 ∧ b1 ≤ 159) && isContB b2 && isValidUtf8 rest2
      | _ => false
    else if b = 240 then
      match rest with
      | b1 :: b2 :: b3 :: rest2 =>
        decide (144 ≤ b1 ∧ b1 ≤ 191) && isContB b2 && isContB b3 && isValidUtf8 rest2
      | _ => false
    else if 241 ≤ b ∧ b ≤ 243 then
      match rest with
      | b1 :: b2 :: b3 :: rest2 => isContB b1 && isContB b2 && isContB b3 && isValidUtf8 rest2
      | _ => false
    else if b = 244 then
      match rest with
      | b1 :: b2 :: b3 :: rest2 =>
        decide (128 ≤ b1 ∧ b1 ≤ 143) && isContB b2 && isContB b3 && isValidUtf8 rest2
      | _ => false
    else false

-- str::trim_matches(' '): drop leading and trailing spaces.
def trimSpaces (l : List Nat) : List Nat :=
  ((l.dropWhile (fun b => b == 32)).reverse.dropWhile (fun b => b == 32)).reverse

inductive Value
  | Undefined
  | Integer (n : Int)
  | Str (s : List Nat)
  | Float (q : ℚ)
  | Boolean (b : Bool)
deriving DecidableEq

inductive Keyword
  | History (s : List Nat)
  | Comment (s : List Nat)
  | Value (kw : List Nat) (v : Value) (comment : List Nat)
  | Continue (kw : List Nat) (v : Value) (comment : List Nat)
deriving DecidableEq

inductive HeaderChunk
  | End
  | History (s : List Nat)
  | Comment (s : List Nat)
  | RawValue (kw : List Nat) (v : List Nat)
deriving DecidableEq

-- The quote scan of extract_str: how many bytes after the opening quote the
-- loop index i advances over.  A quote followed by another quote is the
-- doubling escape and both are consumed; a quote not followed by a quote
-- (including one at the very end) closes the string and stops the scan.
def scanLen : List Nat → Nat
  | [] => 0
  | [b] => if b = 39 then 0 else 1
  | b :: b2 :: rest =>
    if b = 39 then (if b2 = 39 then 2 + scanLen rest else 0)
    else 1 + scanLen (b2 :: rest)

-- The second loop of extract_str: drop a quote whose previous byte was also a
-- quote (prev starts as the space byte).
def dedupQuotes : Nat → List Nat → List Nat
  | _, [] => []
  | prev, b :: rest =>
    if b = 39 ∧ prev = 39 then dedupQuotes b rest else b :: dedupQuotes b rest

-- extract_str of src/parsing.rs; input starts with the opening quote.
def extract_str (input : List Nat) : List Nat :=
  dedupQuotes 32 ((input.drop 1).take (scanLen (input.drop 1)))

def isDigit (b : Nat) : Bool := decide (48 ≤ b ∧ b ≤ 57)

def digitsToNat (l : List Nat) : Nat := l.foldl (fun a b => a * 10 + (b - 48)) 0

-- Leading sign of a numeric literal, shared by Rust's integer and float
-- FromStr grammars.
def stripSign : List Nat → Int × List Nat
  | 43 :: rest => (1, rest)
  | 45 :: rest => (-1, rest)
  | l => (1, l)

-- i64::from_str: optional sign, one or more ASCII digits, result within the
-- i64 range; anything else is a parse error (an unwrap at the call site).
def parseI64 (s : List Nat) : Option Int :=
  let p := stripSign s
  if p.2 ≠ [] ∧ p.2.all isDigit then
    let n : Int := p.1 * (digitsToNat p.2 : Int)
    if -(2 ^ 63) ≤ n ∧ n ≤ 2 ^ 63 - 1 then some n else none
  else none

-- f64::from_str restricted to finite decimal literals: optional sign, digits
-- with an optional fraction (at least one digit overall), optional exponent.
-- The inf/nan word forms of the full Rust grammar contain no byte 46 and are
-- unreachable from the call site, which requires the token to contain 46.
-- The value is the exact rational; IEEE rounding and overflow to infinity
-- are out of scope.
def parseF64 (s : List Nat) : Option ℚ :=
  let p := stripSign s
  let mant := p.2.takeWhile (fun b => !(b == 101 || b == 69))
  let expPart := p.2.dropWhile (fun b => !(b == 101 || b == 69))
  let ipart := mant.takeWhile (fun b => b != 46)
  let dotPart := mant.dropWhile (fun b => b != 46)
  let fracOk : Option (List Nat) :=
    match dotPart with
    | [] => some []
    | _ :: frac => if frac.all isDigit then some frac else none
  match fracOk with
  | none => none
  | some frac =>
    if ipart.all isDigit ∧ ¬(ipart = [] ∧ frac = []) then
      let digits := digitsToNat (ipart ++ frac)
      let expOk : Option Int :=
        match expPart with
        | [] => some 0
        | _ :: es =>
          let q := stripSign es
          if q.2 ≠ [] ∧ q.2.all isDigit then some (q.1 * (digitsToNat q.2 : Int)) else none
      match expOk with
      | none => none
      | some ex =>
        -- The literal's exact value is sign * digits * 10 ^ (ex - frac.length),
        -- built with mkRat so that it evaluates by kernel reduction.
        let e : Int := ex - (frac.length : Int)
        if 0 ≤ e then some (mkRat (p.1 * ((digits * 10 ^ e.toNat : Nat) : Int)) 1)
        else some (mkRat (p.1 * (digits : Int)) (10 ^ (-e).toNat))
    else none

-- Value::from_str of src/parsing.rs.  Byte 47 is the slash, 39 the quote,
-- 84 the letter T, 70 the letter F, 32 the space, 46 the dot, 45 minus and
-- 43 plus.  The unwraps on the numeric parses are the Err.panicked outcomes.
def Value.from_str (value : List Nat) : Except Err Value :=
  match value with
  | [] => .ok .Undefined
  | c :: _ =>
    if c = 47 then .ok .Undefined
    else if c = 39 then .ok (.Str (extract_str value))
    else if c = 84 ∨ c = 70 then .ok (.Boolean (c == 84))
    else
      let pre := value.takeWhile (fun b => !(b == 32 || b == 47))
      if pre.contains 46 then
        match parseF64 pre with
        | some q => .ok (.Float q)
        | none => .error .panicked
      else if pre.all (fun b => isDigit b || b == 45 || b == 43) then
        match parseI64 pre with
        | some n => .ok (.Integer n)
        | none => .error .panicked
      else .ok .Undefined

-- str::is_char_boundary: position 0 is always a boundary; otherwise the byte
-- at the position must exist and not be a UTF-8 continuation byte, or the
-- position is exactly the length.  A str byte-range slice &s[a..b] panics
-- when an index is out of range or not a char boundary.
def isCharBoundary (l : List Nat) (i : Nat) : Bool :=
  if i = 0 then true
  else
    match l[i]? with
    | none => decide (i = l.length)
    | some b => decide (b < 128 ∨ 192 ≤ b)

-- split_header_chunk of src/parsing.rs.  The source slices the record as a
-- str: &header_chunk[8..10] first (the indicator test), then [..8] with
-- [8..10] and [10..], or [..8] with [8..].  The first slice already panics
-- unless bytes 8 and 10 are char boundaries (0 and the length always are),
-- and then every later slice is safe, so the boundary check guards the whole
-- function.  The NOTE of the source applies: a chunk must have 80 characters
-- (slicing would also panic below 10); every use here slices 80-byte records.
def splitBoundariesOk (chunk : List Nat) : Bool :=
  isCharBoundary chunk HEADER_KEYWORD_NAME_SIZE &&
    isCharBoundary chunk (HEADER_KEYWORD_NAME_SIZE + HEADER_VALUE_INDICATOR_SIZE)

def split_header_chunk (chunk : List Nat) : Except Err (List Nat × List Nat × List Nat) :=
  if splitBoundariesOk chunk then
    if (chunk.drop HEADER_KEYWORD_NAME_SIZE).take HEADER_VALUE_INDICATOR_SIZE = HEADER_VALUE_INDICATOR then
      .ok (chunk.take HEADER_KEYWORD_NAME_SIZE, HEADER_VALUE_INDICATOR,
        chunk.drop (HEADER_KEYWORD_NAME_SIZE + HEADER_VALUE_INDICATOR_SIZE))
    else
      .ok (chunk.take HEADER_KEYWORD_NAME_SIZE, [], chunk.drop HEADER_KEYWORD_NAME_SIZE)
  else .error .panicked

-- HeaderChunk::from_bytes of src/parsing.rs: the byte-equality test against
-- the full End literal, then UTF-8 decoding, then the keyword/value split
-- (whose char-boundary slice panic propagates) with both parts
-- space-trimmed, classified by the trimmed keyword name.
def HeaderChunk.from_bytes (b : List Nat) : Except Err HeaderChunk :=
  if b = HEADER_END_KEYWORD_FULL then .ok .End
  else if isValidUtf8 b then
    match split_header_chunk b with
    | .error e => .error e
    | .ok parts =>
      if trimSpaces parts.1 = HEADER_COMMENT_KEYWORD then
        .ok (.Comment (trimSpaces parts.2.2))
      else if trimSpaces parts.1 = HEADER_HISTORY_KEYWORD then
        .ok (.History (trimSpaces parts.2.2))
      else
        .ok (.RawValue (trimSpaces parts.1) (trimSpaces parts.2.2))
  else .error .utf8

-- HeaderChunk::parse; the End arm is the source's explicit panic ("Should be
-- no end value ever"), and the RawValue arm surfaces the panics of
-- Value::from_str.  A parsed value keyword always carries an empty comment.
def HeaderChunk.parse : HeaderChunk → Except Err Keyword
  | .End => .error .panicked
  | .History v => .ok (.History v)
  | .Comment v => .ok (.Comment v)
  | .RawValue kw v =>
    match Value.from_str v with
    | .ok val => .ok (.Value kw val [])
    | .error e => .error e

-- One iteration of the merge loop of parse_header: a CONTINUE-named string
-- keyword pops the previous keyword; if that is a string keyword whose string
-- ends in the byte 38 (the ampersand sentinel), both string and comment lose
-- their last byte (String::pop; a no-op on the empty comment) and the
-- continuation text and comment are appended; otherwise the previous keyword
-- is pushed back and the card is kept as a standalone Continue keyword.
def assembleStep (header : List Keyword) (k : Keyword) : List Keyword :=
  match k with
  | .Value kw (.Str t) c0 =>
    if kw = HEADER_CONTINUE_KEYWORD then
      match header.getLast? with
      | some (.Value kw2 (.Str s) c) =>
        if s.getLast? = some 38 then
          header.dropLast ++ [.Value kw2 (.Str (s.dropLast ++ t)) (c.dropLast ++ c0)]
        else
          header ++ [.Continue HEADER_CONTINUE_KEYWORD (.Str t) c0]
      | some _ => header ++ [.Continue HEADER_CONTINUE_KEYWORD (.Str t) c0]
      | none => [.Continue HEADER_CONTINUE_KEYWORD (.Str t) c0]
    else header ++ [.Value kw (.Str t) c0]
  | k2 => header ++ [k2]

-- The second loop of parse_header: parse each raw chunk and fold it into the
-- keyword list with the continuation merge.
def assembleKeywords : List HeaderChunk → List Keyword → Except Err (List Keyword)
  | [], acc => .ok acc
  | c :: cs, acc =>
    match c.parse with
    | .error e => .error e
    | .ok k => assembleKeywords cs (assembleStep acc k)

-- The card loop over one block: classify each 80-byte record, stopping at the
-- End card (the Bool tells whether End was found); the unwrap on a UTF-8
-- error is a panic.
def readCards : List (List Nat) → Except Err (List HeaderChunk × Bool)
  | [] => .ok ([], false)
  | cb :: rest =>
    match HeaderChunk.from_bytes cb with
    | .error _ => .error .panicked
    | .ok .End => .ok ([], true)
    | .ok hc =>
      match readCards rest with
      | .error e => .error e
      | .ok (cs, f) => .ok (hc :: cs, f)

-- The while loop of parse_header: blocks.next().unwrap() on an exhausted
-- iterator is the Err.panicked outcome; the remaining blocks after the one
-- holding the End card are returned for the data decoder.
def readRawHeader : List (List Nat) → Except Err (List HeaderChunk × List (List Nat))
  | [] => .error .panicked
  | block :: blocks =>
    match readCards (chunksList HEADER_KEYWORD_SIZE block) with
    | .error e => .error e
    | .ok (cs, true) => .ok (cs, blocks)
    | .ok (cs, false) =>
      match readRawHeader blocks with
      | .error e => .error e
      | .ok (cs2, rest) => .ok (cs ++ cs2, rest)

-- parse_header of src/parsing.rs, with the position of the block iterator
-- after the End block made explicit in the result.
def parse_header (blocks : List (List Nat)) : Except Err (List Keyword × List (List Nat)) :=
  match readRawHeader blocks with
  | .error e => .error e
  | .ok (raw, rest) =>
    match assembleKeywords raw [] with
    | .error e => .error e
    | .ok kws => .ok (kws, rest)

/-- Modelled from the spec: the BITPIX enumeration of the crate::header module
that is absent from src/ (spec section 3), over codes 8, 16, 32, 64, -32, -64. -/
inductive Bitpix
  | Int8
  | Int16
  | Int32
  | Int64
  | Float32
  | Float64
deriving DecidableEq

def Bitpix.to_int : Bitpix → Int
  | .Int8 => 8
  | .Int16 => 16
  | .Int32 => 32
  | .Int64 => 64
  | .Float32 => -32
  | .Float64 => -64

def bitpixOfInt (i : Int) : Option Bitpix :=
  if i = 8 then some .Int8
  else if i = 16 then some .Int16
  else if i = 32 then some .Int32
  else if i = 64 then some .Int64
  else if i = -32 then some .Float32
  else if i = -64 then some .Float64
  else none

/-- Modelled from the spec: the Header record of the crate::header module that
is absent from src/ (spec section 3): the full keyword sequence plus the
validated simple/bitpix/naxis/axes fields. -/
structure Header where
  simple : Bool
  bitpix : Bitpix
  naxis : Nat
  axes : List Nat
  keywords : List Keyword
deriving DecidableEq

-- find_value of src/parsing.rs: the first Value keyword with the given name.
def find_value : List Keyword → List Nat → Option Value
  | [], _ => none
  | .Value k v _ :: rest, key => if k = key then some v else find_value rest key
  | _ :: rest, key => find_value rest key

-- The key "NAXIS{i}" for i at most 999 (NAXIS is validated to 0..=999).
def natDigits3 (i : Nat) : List Nat :=
  if i < 10 then [48 + i]
  else if i < 100 then [48 + i / 10, 48 + i % 10]
  else [48 + i / 100, 48 + (i / 10) % 10, 48 + i % 10]

def naxisKey (i : Nat) : List Nat := strB ("NAXIS") ++ natDigits3 i

-- The NAXIS1..NAXISn extraction loop: each must be an Integer keyword.
def collectAxes (kws : List Keyword) : Nat → Option (List Nat)
  | 0 => some []
  | n + 1 =>
    match collectAxes kws n with
    | none => none
    | some prev =>
      match find_value kws (naxisKey (n + 1)) with
      | some (.Integer i) => some (prev ++ [i.toNat])
      | _ => none

/-- Modelled from the spec: Header::from_keyword_list of the crate::header
module that is absent from src/ (spec section 4.3).  SIMPLE is a Boolean
defaulting to false; NAXIS must be an Integer in 0..=999; BITPIX must be an
Integer among the six codes; NAXIS1..NAXISn must each be Integers.  Any
violation makes the construction fail (the question-mark operator at the
call site turns that into the Ok-none result of read_fits_buffer). -/
def Header.from_keyword_list (kws : List Keyword) : Option Header :=
  let simple :=
    match find_value kws (strB ("SIMPLE")) with
    | some (.Boolean b) => b
    | _ => false
  match find_value kws (strB ("NAXIS")) with
  | some (.Integer ni) =>
    if 0 ≤ ni ∧ ni ≤ 999 then
      match find_value kws (strB ("BITPIX")) with
      | some (.Integer bi) =>
        match bitpixOfInt bi with
        | some bp =>
          match collectAxes kws ni.toNat with
          | some axes => some ⟨simple, bp, ni.toNat, axes, kws⟩
          | none => none
        | none => none
      | _ => none
    else none
  | _ => none

-- f64::from_be_bytes modelled by the big-endian bit pattern as a Nat.
def beBytesToNat (l : List Nat) : Nat := l.foldl (fun a b => a * 256 + b) 0

-- The while loop of chuncks_to_data_f64 (source spelling kept): pull a block
-- per iteration (unwrap of an exhausted iterator is a panic), decode the
-- 8-byte chunks of the block zipped with 0..read/8 — so at most read/8
-- elements, and silently fewer when chunks_exact finds fewer full chunks.
def chuncksGo : List (List Nat) → Nat → Except Err (List Nat)
  | _, 0 => .ok []
  | [], _ + 1 => .error .panicked
  | block :: rest, r + 1 =>
    let rem := r + 1
    let read := min rem BLOCK_SIZE
    let elems := ((chunksExact 8 block).take (read / 8)).map beBytesToNat
    match chuncksGo rest (rem - read) with
    | .error e => .error e
    | .ok tl => .ok (elems ++ tl)

-- chuncks_to_data_f64 of src/parsing.rs; size is only the Vec::with_capacity
-- hint and does not affect the result.
def chuncks_to_data_f64 (blocks : List (List Nat)) (_size : Nat) (bytes : Nat) :
    Except Err (List Nat) :=
  chuncksGo blocks bytes

-- read_fits_buffer of src/parsing.rs.  Tensor::from wraps the decoded Vec
-- without changing its contents, so the data unit is kept as the flat list.
def read_fits_buffer (buffer : List Nat) : Except Err (Option (Header × Option (List Nat))) :=
  match parse_header (chunksList BLOCK_SIZE buffer) with
  | .error e => .error e
  | .ok (kws, rest) =>
    match Header.from_keyword_list kws with
    | none => .ok none
    | some header =>
      let bitpix := header.bitpix.to_int
      let axes := header.axes
      let bytes := (axes.prod * bitpix.natAbs) / 8
      let size := axes.prod
      if bitpix = -64 then
        match chuncks_to_data_f64 rest size bytes with
        | .error e => .error e
        | .ok data => .ok (some (header, some data))
      else .ok (some (header, none))

/-
Spec-side definitions.  The following definitions are written from the
spec's words, not from the source; they exist only to be compared with the
source-translated definitions above in the refinement-style theorems.
-/

-- Spec-side classifier used by the amended C6: classification depends only
-- on the trimmed 8-byte name (COMMENT and HISTORY are commentary, everything
-- else is a value card); the indicator only selects the value field.
def classifyByName (b : List Nat) : HeaderChunk :=
  if trimSpaces (b.take HEADER_KEYWORD_NAME_SIZE) = HEADER_COMMENT_KEYWORD then
    .Comment (trimSpaces (if (b.drop HEADER_KEYWORD_NAME_SIZE).take HEADER_VALUE_INDICATOR_SIZE = HEADER_VALUE_INDICATOR then b.drop (HEADER_KEYWORD_NAME_SIZE + HEADER_VALUE_INDICATOR_SIZE) else b.drop HEADER_KEYWORD_NAME_SIZE))
  else if trimSpaces (b.take HEADER_KEYWORD_NAME_SIZE) = HEADER_HISTORY_KEYWORD then
    .History (trimSpaces (if (b.drop HEADER_KEYWORD_NAME_SIZE).take HEADER_VALUE_INDICATOR_SIZE = HEADER_VALUE_INDICATOR then b.drop (HEADER_KEYWORD_NAME_SIZE + HEADER_VALUE_INDICATOR_SIZE) else b.drop HEADER_KEYWORD_NAME_SIZE))
  else
    .RawValue (trimSpaces (b.take HEADER_KEYWORD_NAME_SIZE))
      (trimSpaces (if (b.drop HEADER_KEYWORD_NAME_SIZE).take HEADER_VALUE_INDICATOR_SIZE = HEADER_VALUE_INDICATOR then b.drop (HEADER_KEYWORD_NAME_SIZE + HEADER_VALUE_INDICATOR_SIZE) else b.drop HEADER_KEYWORD_NAME_SIZE))

-- A classification outcome that is a Commentary or Value card (any
-- successful outcome other than End).
def isCommentaryOrValue : Except Err HeaderChunk → Bool
  | .ok (.Comment _) => true
  | .ok (.History _) => true
  | .ok (.RawValue _ _) => true
  | _ => false

-- Spec-side scanner: the bytes after the opening quote contain a closing
-- unescaped quote (a quote that is not the first of a doubled pair).
def hasClosingQuote : List Nat → Bool
  | [] => false
  | [b] => decide (b = 39)
  | b :: b2 :: rest =>
    if b = 39 then (if b2 = 39 then hasClosingQuote rest else true)
    else hasClosingQuote (b2 :: rest)

-- Spec-side collapse used by the amended C10: one quote is kept for each
-- maximal run of consecutive quotes (inRun is true while within a run).
def collapseRuns : Bool → List Nat → List Nat
  | _, [] => []
  | inRun, b :: rest =>
    if b = 39 then (if inRun then collapseRuns true rest else 39 :: collapseRuns true rest)
    else b :: collapseRuns false rest

/-
Concrete buffers and projection helpers for the claims that evaluate the
decoder end to end.
-/

-- An 80-byte card record: ASCII text space-padded to the card width.
def padCard (s : String) : List Nat := strB s ++ List.replicate (80 - s.length) 32

-- A 2880-byte header block: the given cards followed by space padding.
def padBlock (cards : List (List Nat)) : List Nat :=
  cards.flatten ++ List.replicate (BLOCK_SIZE - cards.flatten.length) 32

-- A minimal NAXIS=0 file: one header block, no data blocks.
def c1buf : List Nat :=
  padBlock [padCard ("SIMPLE  =                    T"), padCard ("BITPIX  =                  -64"),
    padCard ("NAXIS   =                    0"), padCard ("END")]

-- The header block of a BITPIX=-64, NAXIS1=2 file (16 data bytes expected).
def c2hdr : List Nat :=
  padBlock [padCard ("SIMPLE  =                    T"), padCard ("BITPIX  =                  -64"),
    padCard ("NAXIS   =                    1"), padCard ("NAXIS1  =                    2"),
    padCard ("END")]

-- The otherwise-valid file: header plus its full 16-byte data section.
def c2bufFull : List Nat := c2hdr ++ List.replicate 16 0

-- The same file with its data section truncated by one byte.
def c2buf : List Nat := c2hdr ++ List.replicate 15 0

-- The same file with its data section missing entirely (no block after the
-- header block).
def c2bufEmpty : List Nat := c2hdr

-- A BITPIX=-64, NAXIS1=3 file whose 24-byte data section is truncated to 17.
def c3buf : List Nat :=
  padBlock [padCard ("SIMPLE  =                    T"), padCard ("BITPIX  =                  -64"),
    padCard ("NAXIS   =                    1"), padCard ("NAXIS1  =                    3"),
    padCard ("END")]
  ++ List.replicate 17 0

-- One all-spaces block: thirty-six commentary-free records and no End card.
def c4buf : List Nat := List.replicate BLOCK_SIZE 32

-- The length of the decoded data unit, when decoding succeeded with data.
def decodeDataLen : Except Err (Option (Header × Option (List Nat))) → Option Nat
  | .ok (some (_, some d)) => some d.length
  | _ => none

-- The product of the validated axes, when decoding succeeded with a header.
def decodeAxesProd : Except Err (Option (Header × Option (List Nat))) → Option Nat
  | .ok (some (h, _)) => some h.axes.prod
  | _ => none

/-
Claim theorems.
-/

/-- C1 (code bug): the claim — and the spec — say a validated header with
naxis = 0 decodes to "header present, data absent" with no data bytes read.
The code never checks for empty axes: the empty product is 1, so with
BITPIX = -64 it expects 8 data bytes; on the minimal one-block NAXIS=0 file
the exhausted block iterator is unwrapped and the decode panics instead of
returning the header without data. -/
theorem c1_naxis0_reads_data : read_fits_buffer c1buf = .error .panicked := by decide

/-- C2 (code bug): the claim says a data section shorter than
product(axes) * 8 bytes fails with a distinguishable TruncatedData error.
No such error exists in the code.  The otherwise-valid BITPIX=-64, NAXIS1=2
file (header plus all 16 data bytes) decodes to the full 2-element buffer;
truncating its data section by one byte makes chunks_exact silently drop the
7-byte remainder, so the decode returns Ok with a 1-element buffer; dropping
the data block entirely makes blocks.next().unwrap() panic.  Neither failure
mode is a TruncatedData error, and the one-byte truncation is exactly the
silently short buffer the claim rules out. -/
theorem c2_truncation_silently_short :
    decodeDataLen (read_fits_buffer c2bufFull) = some 2 ∧
    decodeAxesProd (read_fits_buffer c2bufFull) = some 2 ∧
    decodeDataLen (read_fits_buffer c2buf) = some 1 ∧
    decodeAxesProd (read_fits_buffer c2buf) = some 2 ∧
    read_fits_buffer c2bufEmpty = .error .panicked := by
  exact ⟨by decide, by decide, by decide, by decide, by decide⟩

/-- C3 (code bug): the claimed invariant — a successful decode with data has
length equal to product(axes) — is violated by the same truncation slip: a
NAXIS1=3 file with only 17 of its 24 data bytes decodes successfully to a
2-element buffer while the axes product is 3. -/
theorem c3_length_invariant_broken :
    decodeDataLen (read_fits_buffer c3buf) = some 2 ∧
    decodeAxesProd (read_fits_buffer c3buf) = some 3 := by
  exact ⟨by decide, by decide⟩

/-- C4 (code bug): the claim says exhausting the buffer without an End card
reports the distinguishable MalformedHeader error.  Header parsing does
terminate when the blocks run out, but via blocks.next().unwrap() — an
unstructured panic, not a structured error value. -/
theorem c4_no_end_panics : parse_header (chunksList BLOCK_SIZE c4buf) = .error .panicked := by
  decide

-- An 80-byte record that is not valid UTF-8.
def c5bad : List Nat := List.replicate 80 255

/-- C5 counterexample: an 80-byte record of 0xFF bytes is not the End literal,
yet it is not classified as a Value or Commentary card either — classification
fails with a Utf8Error, refuting "every other 80-byte record is classified as
a Value or Commentary card". -/
theorem c5_counterexample :
    c5bad.length = 80 ∧ c5bad ≠ HEADER_END_KEYWORD_FULL ∧
    HeaderChunk.from_bytes c5bad = .error .utf8 := by
  exact ⟨by decide, by decide, by decide⟩

theorem split_header_chunk_ok (b : List Nat) (hbd : splitBoundariesOk b = true) :
    split_header_chunk b = .ok (b.take HEADER_KEYWORD_NAME_SIZE,
      (if (b.drop HEADER_KEYWORD_NAME_SIZE).take HEADER_VALUE_INDICATOR_SIZE = HEADER_VALUE_INDICATOR
       then HEADER_VALUE_INDICATOR else []),
      (if (b.drop HEADER_KEYWORD_NAME_SIZE).take HEADER_VALUE_INDICATOR_SIZE = HEADER_VALUE_INDICATOR
       then b.drop (HEADER_KEYWORD_NAME_SIZE + HEADER_VALUE_INDICATOR_SIZE)
       else b.drop HEADER_KEYWORD_NAME_SIZE)) := by
  unfold split_header_chunk
  rw [if_pos hbd]
  split <;> simp_all

theorem split_header_chunk_panic (b : List Nat) (hbd : splitBoundariesOk b = false) :
    split_header_chunk b = .error .panicked := by
  unfold split_header_chunk
  rw [if_neg (by simp [hbd])]

/-- C5 (amended): an 80-byte record classifies as End if and only if it equals
the exact 80-byte End literal; every other 80-byte record that is valid UTF-8
and whose byte offsets 8 and 10 fall on character boundaries is classified as
a Value or Commentary card (by the trimmed-keyword-name rule, not the
indicator rule); an invalid UTF-8 record is rejected with a Utf8Error, and a
valid UTF-8 record with a multibyte character straddling offset 8 or 10
panics in the byte-range slice of the keyword/value split. -/
theorem c5_end_iff_literal (b : List Nat) (_hlen : b.length = 80) :
    (HeaderChunk.from_bytes b = .ok .End ↔ b = HEADER_END_KEYWORD_FULL) ∧
    (b ≠ HEADER_END_KEYWORD_FULL → isValidUtf8 b = true → splitBoundariesOk b = true →
      isCommentaryOrValue (HeaderChunk.from_bytes b) = true) ∧
    (b ≠ HEADER_END_KEYWORD_FULL → isValidUtf8 b = true → splitBoundariesOk b = false →
      HeaderChunk.from_bytes b = .error .panicked) := by
  by_cases hb : b = HEADER_END_KEYWORD_FULL
  · subst hb
    refine ⟨?_, fun h => absurd rfl h, fun h => absurd rfl h⟩
    simp [HeaderChunk.from_bytes]
  · refine ⟨⟨fun h => ?_, fun h => absurd h hb⟩, fun _ hu hbd => ?_, fun _ hu hbd => ?_⟩
    · exfalso
      unfold HeaderChunk.from_bytes at h
      rw [if_neg hb] at h
      by_cases hu : isValidUtf8 b
      · rw [if_pos hu] at h
        by_cases hbd : splitBoundariesOk b = true
        · rw [split_header_chunk_ok b hbd] at h
          dsimp only at h
          split_ifs at h <;> simp at h
        · rw [split_header_chunk_panic b (by simpa using hbd)] at h
          simp at h
      · rw [if_neg hu] at h
        simp at h
    · unfold HeaderChunk.from_bytes
      rw [if_neg hb, if_pos hu, split_header_chunk_ok b hbd]
      dsimp only
      split_ifs <;> rfl
    · unfold HeaderChunk.from_bytes
      rw [if_neg hb, if_pos hu, split_header_chunk_panic b hbd]

-- A commentary card used to instantiate the C5 theorem.
def c5card : List Nat := padCard ("COMMENT hello")

/-- Witness for the C5 theorem at a concrete commentary card. -/
theorem c5_end_iff_literal_witness :
    (HeaderChunk.from_bytes c5card = .ok .End ↔ c5card = HEADER_END_KEYWORD_FULL) ∧
    (c5card ≠ HEADER_END_KEYWORD_FULL → isValidUtf8 c5card = true →
      splitBoundariesOk c5card = true →
      isCommentaryOrValue (HeaderChunk.from_bytes c5card) = true) ∧
    (c5card ≠ HEADER_END_KEYWORD_FULL → isValidUtf8 c5card = true →
      splitBoundariesOk c5card = false →
      HeaderChunk.from_bytes c5card = .error .panicked) :=
  c5_end_iff_literal c5card (by decide)

-- An 80-byte record with no value indicator and a name that is neither
-- COMMENT nor HISTORY.
def c6card : List Nat := padCard ("FOOBAR  no indicator here")

/-- C6 counterexample: a record whose bytes [8,10) are not the indicator, yet
whose trimmed name is not COMMENT or HISTORY, classifies as a Value card
(RawValue), refuting "otherwise the record classifies as Commentary, for
every name". -/
theorem c6_counterexample :
    (c6card.drop HEADER_KEYWORD_NAME_SIZE).take HEADER_VALUE_INDICATOR_SIZE ≠ HEADER_VALUE_INDICATOR ∧
    HeaderChunk.from_bytes c6card = .ok (.RawValue (strB ("FOOBAR")) (strB ("no indicator here"))) := by
  exact ⟨by decide, by decide⟩

/-- C6 (amended): for every 80-byte valid-UTF-8 record other than the End
literal whose byte offsets 8 and 10 fall on character boundaries,
classification depends only on the trimmed 8-byte name — Commentary exactly
when that name is COMMENT or HISTORY (with or without the indicator), a Value
card with name = first 8 bytes trimmed otherwise; the indicator only selects
the value field (bytes after "= " when present, bytes [8,80) otherwise,
trimmed either way).  When a multibyte character straddles offset 8 or 10 the
record is not classified at all: the byte-range slice of the keyword/value
split panics. -/
theorem c6_classified_by_name (b : List Nat) (_hlen : b.length = 80)
    (hne : b ≠ HEADER_END_KEYWORD_FULL) (hutf : isValidUtf8 b = true) :
    (splitBoundariesOk b = true → HeaderChunk.from_bytes b = .ok (classifyByName b)) ∧
    (splitBoundariesOk b = false → HeaderChunk.from_bytes b = .error .panicked) := by
  constructor
  · intro hbd
    unfold HeaderChunk.from_bytes classifyByName
    rw [if_neg hne, if_pos hutf, split_header_chunk_ok b hbd]
    dsimp only
    split_ifs <;> rfl
  · intro hbd
    unfold HeaderChunk.from_bytes
    rw [if_neg hne, if_pos hutf, split_header_chunk_panic b hbd]

-- A value card used to instantiate the C6 theorem.
def c6okCard : List Nat := padCard ("SIMPLE  =                    T / ok")

-- A valid-UTF-8 record whose two-byte character (0xC3 0xA9) straddles byte
-- offset 8, so the keyword/value split panics on it.
def c6accent : List Nat := strB ("AAAAAAA") ++ [195, 169] ++ List.replicate 71 32

/-- Witness for the C6 theorem at a concrete value card (classified branch)
and at a record with a multibyte character straddling offset 8 (panic
branch). -/
theorem c6_classified_by_name_witness :
    HeaderChunk.from_bytes c6okCard = .ok (classifyByName c6okCard) ∧
    HeaderChunk.from_bytes c6accent = .error .panicked :=
  ⟨(c6_classified_by_name c6okCard (by decide) (by decide) (by decide)).1 (by decide),
   (c6_classified_by_name c6accent (by decide) (by decide) (by decide)).2 (by decide)⟩

/-- C7: the six Value Parser examples of the spec hold on the code, with the
quoted-string example written as its byte list ([39,65,66,39,39,67,68,39] is
'AB''CD' including the delimiting quotes; [65,66,39,67,68] is AB'CD) and the
f64 value 3.14 represented by the exact rational 314/100. -/
theorem c7_value_parser_examples :
    Value.from_str (strB ("T")) = .ok (.Boolean true) ∧
    Value.from_str ([39, 65, 66, 39, 39, 67, 68, 39]) = .ok (.Str ([65, 66, 39, 67, 68])) ∧
    Value.from_str (strB ("3.14")) = .ok (.Float (mkRat 314 100)) ∧
    mkRat 314 100 = (314 / 100 : ℚ) ∧
    Value.from_str (strB ("42")) = .ok (.Integer 42) ∧
    Value.from_str ([]) = .ok .Undefined ∧
    Value.from_str (strB ("/ comment only")) = .ok .Undefined := by
  refine ⟨by decide, by decide, by decide, ?_, by decide, by decide, by decide⟩
  rw [Rat.mkRat_eq_div]
  norm_num

/-- C8 (code bug): the claim — and the spec's safety requirement — say the
rule-5 branch totally returns a Value and never raises an unstructured fault.
The code unwraps the numeric parses: the token 1.2.3 (contains a dot, fails
the float parse) and the token +- (all characters in the digit/sign set,
fails the integer parse) both panic. -/
theorem c8_numeric_parse_panics :
    Value.from_str (strB ("1.2.3")) = .error .panicked ∧
    Value.from_str (strB ("+-")) = .error .panicked := by
  exact ⟨by decide, by decide⟩

theorem assembleKeywords_append (cs : List HeaderChunk) (c : HeaderChunk) (acc : List Keyword) :
    assembleKeywords (cs ++ [c]) acc =
      match assembleKeywords cs acc with
      | .error e => .error e
      | .ok hs =>
        match c.parse with
        | .error e => .error e
        | .ok k => .ok (assembleStep hs k) := by
  induction cs generalizing acc with
  | nil => cases hp : c.parse <;> simp [assembleKeywords, hp]
  | cons c2 cs2 ih => cases hp : c2.parse <;> simp [assembleKeywords, hp, ih]

/-- C9: when the assembler has produced a keyword list ending in a
string-valued keyword whose string ends in the ampersand sentinel (byte 38;
assembled value keywords always carry the empty comment), a further
CONTINUE-named card whose raw value parses to a string replaces that keyword
in place by the merged keyword: the previous string minus its trailing
sentinel, concatenated with the continuation string, comments merged
likewise (here both empty). -/
theorem c9_continuation_merge (cs : List HeaderChunk) (hs : List Keyword)
    (kw s raw t : List Nat)
    (hasm : assembleKeywords cs [] = .ok (hs ++ [.Value kw (.Str s) []]))
    (hamp : s.getLast? = some 38)
    (hraw : Value.from_str raw = .ok (.Str t)) :
    assembleKeywords (cs ++ [.RawValue HEADER_CONTINUE_KEYWORD raw]) [] =
      .ok (hs ++ [.Value kw (.Str (s.dropLast ++ t)) []]) := by
  have hp : HeaderChunk.parse (.RawValue HEADER_CONTINUE_KEYWORD raw) =
      .ok (.Value HEADER_CONTINUE_KEYWORD (.Str t) []) := by
    simp only [HeaderChunk.parse]
    rw [hraw]
  rw [assembleKeywords_append, hasm]
  simp [hp, assembleStep, List.getLast?_concat, hamp, List.dropLast_concat]

-- The chunk list producing a keyword whose string value ends in the
-- sentinel: the card KEY = 'abc&' as raw bytes ([39] is the quote).
def c9cs : List HeaderChunk := [.RawValue (strB ("KEY")) ([39] ++ strB ("abc&") ++ [39])]

/-- Witness for the C9 theorem: KEY = 'abc&' followed by CONTINUE 'def'
merges to the single keyword KEY with string value abcdef. -/
theorem c9_continuation_merge_witness :
    assembleKeywords (c9cs ++ [.RawValue HEADER_CONTINUE_KEYWORD ([39] ++ strB ("def") ++ [39])]) [] =
      .ok ([] ++ [.Value (strB ("KEY")) (.Str ((strB ("abc&")).dropLast ++ strB ("def"))) []]) :=
  c9_continuation_merge c9cs [] (strB ("KEY")) (strB ("abc&"))
    ([39] ++ strB ("def") ++ [39]) (strB ("def")) (by decide) (by decide) (by decide)

theorem scanLen_of_no_close (n : Nat) :
    ∀ l : List Nat, l.length ≤ n → hasClosingQuote l = false → scanLen l = l.length := by
  induction n with
  | zero =>
    intro l hl _
    have h0 : l = [] := List.eq_nil_of_length_eq_zero (Nat.le_zero.mp hl)
    subst h0
    rfl
  | succ n ih =>
    intro l hl hc
    cases l with
    | nil => rfl
    | cons b rest =>
      cases rest with
      | nil =>
        by_cases hb : b = 39
        · subst hb
          simp [hasClosingQuote] at hc
        · simp [scanLen, hb]
      | cons b2 rest2 =>
        by_cases hb : b = 39
        · subst hb
          by_cases hb2 : b2 = 39
          · subst hb2
            have hc2 : hasClosingQuote rest2 = false := by
              simpa [hasClosingQuote] using hc
            have hlen2 : rest2.length ≤ n := by
              simp only [List.length_cons] at hl
              omega
            rw [show scanLen (39 :: 39 :: rest2) = 2 + scanLen rest2 from rfl,
              ih rest2 hlen2 hc2]
            simp only [List.length_cons]
            omega
          · simp [hasClosingQuote, hb2] at hc
        · have hc2 : hasClosingQuote (b2 :: rest2) = false := by
            simpa [hasClosingQuote, hb] using hc
          have hlen2 : (b2 :: rest2).length ≤ n := by
            simp only [List.length_cons] at hl ⊢
            omega
          simp only [scanLen, if_neg hb, ih (b2 :: rest2) hlen2 hc2, List.length_cons]
          omega

theorem scanLen_eq_length (l : List Nat) (h : hasClosingQuote l = false) :
    scanLen l = l.length :=
  scanLen_of_no_close l.length l le_rfl h

theorem dedupQuotes_eq_collapseRuns (l : List Nat) :
    ∀ prev : Nat, dedupQuotes prev l = collapseRuns (prev == 39) l := by
  induction l with
  | nil => intro prev; rfl
  | cons b rest ih =>
    intro prev
    by_cases hb : b = 39
    · subst hb
      by_cases hp : prev = 39
      · subst hp
        simp [dedupQuotes, collapseRuns, ih]
      · simp [dedupQuotes, collapseRuns, hp, ih]
    · have hb2 : (b == 39) = false := by simp [hb]
      simp [dedupQuotes, collapseRuns, hb, hb2, ih]

/-- C10 (amended): a raw value field that begins with a quote (byte 39) and
contains no closing unescaped quote still yields Str of all bytes after the
opening quote with every maximal run of consecutive quotes collapsed to a
single quote — not one quote per doubled pair: the dedup loop only tracks the
previous byte, so a run of four quotes yields one quote, not two. -/
theorem c10_unterminated_string (rest : List Nat) (h : hasClosingQuote rest = false) :
    Value.from_str (39 :: rest) = .ok (.Str (collapseRuns false rest)) := by
  have hex : extract_str (39 :: rest) = collapseRuns false rest := by
    unfold extract_str
    show dedupQuotes 32 (rest.take (scanLen rest)) = _
    have h32 : ((32 : Nat) == 39) = false := by decide
    rw [scanLen_eq_length rest h, List.take_length, dedupQuotes_eq_collapseRuns rest 32, h32]
  simp [Value.from_str, hex]

/-- C10 counterexample: the unterminated value 'a''''b (bytes
[39,97,39,39,39,39,98]) parses to Str a'b — the run of four quotes collapses
to a single quote — and not to Str a''b as "each doubled quote collapsed to
one" would give. -/
theorem c10_counterexample :
    Value.from_str ([39, 97, 39, 39, 39, 39, 98]) = .ok (.Str ([97, 39, 98])) ∧
    Value.from_str ([39, 97, 39, 39, 39, 39, 98]) ≠ .ok (.Str ([97, 39, 39, 98])) := by
  exact ⟨by decide, by decide⟩

/-- Witness for the C10 theorem at the unterminated value 'a''b. -/
theorem c10_unterminated_string_witness :
    Value.from_str (39 :: [97, 39, 39, 98]) = .ok (.Str (collapseRuns false [97, 39, 39, 98])) :=
  c10_unterminated_string [97, 39, 39, 98] (by decide)

end Fits
